import Mathlib

/-!
Verification of the Meshalto payment SDK (vite-react frontend) against its
natural-language specification.

The model below is a shallow embedding of the TypeScript source:
* `MeshaltoPayment.tsx` — card-input formatting (`formatCardNumber`,
  `formatExpiryDate`, the three change handlers), gateway dispatch, and the
  generic `handleSubmit` that posts to `${apiUrl}/process/${gatewayEndpoint}`;
* `StripePaymentForm.tsx` — the Stripe Elements checkout path
  (`Math.round(amount * 100)`, `fetch`, `response.ok` success test);
* the spec's Fee Estimator / Provider Selector (§4.3–§4.4), embedded
  separately from the spec's own words for comparison, since the fee-based
  selection the spec describes lives in the backend (`sdk/server/fee_optimizer.py`),
  not in the frontend source.

JavaScript strings are modelled as `String` (a wrapper around `List Char`);
JavaScript numbers as `ℚ` (their floating-point representation is outside
this model and is discussed where it matters).  Absent/undefined string
fields are modelled as `""`, matching how `||`-chains in the source treat
`undefined` and `""` alike (both falsy).
-/

namespace Meshalto

/-- `value.replace(/\s+/g, '')` / `value.replace(/\s/g, '')`: drop every
whitespace character. -/
def removeWs (l : List Char) : List Char := l.filter (fun c => !c.isWhitespace)

/-- `value.replace(/[^0-9]/gi, '')`: keep only decimal digits. -/
def keepDigits (l : List Char) : List Char := l.filter Char.isDigit

/-- JavaScript `a || b` on string values, where both `undefined` and `""` are
falsy; absent fields are modelled as `""`. -/
def strOr (a b : String) : String := if a = "" then b else a

/-- The groups produced by the `for (let i = 0; i < len; i += 4)` loop in
`formatCardNumber`: successive `substring(i, i + 4)` chunks. -/
def chunk4 : List Char → List (List Char)
  | [] => []
  | a :: b :: c :: d :: rest => [a, b, c, d] :: chunk4 rest
  | l => [l]

/-- `parts.join(' ')`. -/
def joinSp : List (List Char) → List Char
  | [] => []
  | [p] => p
  | p :: ps => p ++ ' ' :: joinSp ps

/-- Split on `' '` (used only to state the "blocks separated by single
spaces" shape of claim C10; mirrors `String.prototype.split(' ')`). -/
def splitSp : List Char → List (List Char)
  | [] => [[]]
  | c :: rest =>
    if c = ' ' then [] :: splitSp rest
    else
      match splitSp rest with
      | [] => [[c]]
      | p :: ps => (c :: p) :: ps

/-- `formatCardNumber` from `MeshaltoPayment.tsx`:
strip whitespace and non-digits, take the first match of `/\d{4,16}/g`
(on an all-digit string that is the first `min(16, length)` digits, and there
is no match when fewer than 4 digits remain), group it in fours and join with
spaces; when there is no match the raw input is returned unchanged. -/
def formatCardNumber (value : String) : String :=
  let v := keepDigits (removeWs value.data)
  let m := if 4 ≤ v.length then v.take 16 else []
  if m.isEmpty then value else ⟨joinSp (chunk4 m)⟩

/-- `formatExpiryDate` from `MeshaltoPayment.tsx`: strip to digits; with at
least two digits return `substring(0,2) + '/' + substring(2,4)`, else the
digits themselves. -/
def formatExpiryDate (value : String) : String :=
  let v := keepDigits (removeWs value.data)
  if 2 ≤ v.length then ⟨v.take 2 ++ '/' :: (v.drop 2).take 2⟩ else ⟨v⟩

/-- The card-entry state of the generic `MeshaltoPayment` form. -/
structure CardFormState where
  cardNumber : String
  expiryDate : String
  cvv : String
  cardholderName : String
deriving DecidableEq

/-- `handleCardNumberChange`: format, then update only if the formatted
value has at most 19 characters. -/
def handleCardNumberChange (s : CardFormState) (input : String) : CardFormState :=
  let formatted := formatCardNumber input
  if formatted.data.length ≤ 19 then { s with cardNumber := formatted } else s

/-- `handleExpiryDateChange`: format, then update only if the formatted
value has at most 5 characters. -/
def handleExpiryDateChange (s : CardFormState) (input : String) : CardFormState :=
  let formatted := formatExpiryDate input
  if formatted.data.length ≤ 5 then { s with expiryDate := formatted } else s

/-- `handleCvvChange`: strip to digits, update only if at most 4 digits. -/
def handleCvvChange (s : CardFormState) (input : String) : CardFormState :=
  let value : String := ⟨keepDigits input.data⟩
  if value.data.length ≤ 4 then { s with cvv := value } else s

/-- One input-change event on the generic card form. -/
inductive InputEvent where
  | card (value : String)
  | expiry (value : String)
  | cvv (value : String)
  | name (value : String)

/-- React state transition for one change event. -/
def step (s : CardFormState) : InputEvent → CardFormState
  | .card v => handleCardNumberChange s v
  | .expiry v => handleExpiryDateChange s v
  | .cvv v => handleCvvChange s v
  | .name v => { s with cardholderName := v }

/-- The initial state: all four `useState('')` hooks. -/
def initState : CardFormState := ⟨"", "", "", ""⟩

/-- The state after a sequence of input-change events. -/
def stepEvents (evs : List InputEvent) : CardFormState := evs.foldl step initState

/-- The props of `MeshaltoPayment` that reach `handleSubmit`.  `gateway`
stands for the effective `selectedGateway` state (initialised from and synced
with the `gateway` prop). -/
structure MeshaltoProps where
  apiUrl : String
  apiKey : String
  amount : ℚ
  currency : String
  gateway : String
deriving DecidableEq

/-- Line 126–127 of `MeshaltoPayment.tsx`:
`selectedGateway === 'auto' ? 'stripe' : selectedGateway`. -/
def gatewayEndpoint (selectedGateway : String) : String :=
  if selectedGateway = "auto" then "stripe" else selectedGateway

/-- `customer: { email, name }` of the posted body. -/
structure CustomerInfo where
  email : String
  name : String
deriving DecidableEq

/-- `payment_token: { token, brand }` of the posted body. -/
structure PaymentToken where
  token : String
  brand : String
deriving DecidableEq

/-- The JSON body posted by the generic `handleSubmit`.  The `description`
template literal renders the amount with JavaScript number formatting; here
the rational is rendered with `toString`, which no claim depends on. -/
structure RequestBody where
  amount : ℚ
  currency : String
  payment_method : String
  description : String
  customer : CustomerInfo
  payment_token : PaymentToken
deriving DecidableEq

/-- One `axios.post` invocation: target URL, API key header, body. -/
structure PostRequest where
  url : String
  xApiKey : String
  body : RequestBody
deriving DecidableEq

/-- The body built at lines 131–144 of `MeshaltoPayment.tsx`.  The email and
the brand are hard-coded constants; the token is
`cardNumber.replace(/\s/g, '').substring(0, 16)`. -/
def requestBody (p : MeshaltoProps) (s : CardFormState) : RequestBody :=
  { amount := p.amount
    currency := p.currency
    payment_method := "card"
    description := "Payment of " ++ p.currency ++ " " ++ toString p.amount
    customer := { email := "customer@example.com", name := s.cardholderName }
    payment_token := { token := ⟨(removeWs s.cardNumber.data).take 16⟩, brand := "visa" } }

/-- The full request of the single `axios.post` call. -/
def builtRequest (p : MeshaltoProps) (s : CardFormState) : PostRequest :=
  { url := p.apiUrl ++ "/process/" ++ gatewayEndpoint p.gateway
    xApiKey := p.apiKey
    body := requestBody p s }

/-- The parsed success-path response body (`response.data`); the component
reads `status` and `error_message`, and forwards the rest (here represented
by `transaction_id` and `gateway`) to `onSuccess`.  `""` models an absent
field. -/
structure ResponseData where
  transaction_id : String
  gateway : String
  status : String
  error_message : String
deriving DecidableEq

/-- `err.response?.data` of a failed axios call; `""` models an absent
field. -/
structure HttpErrorData where
  detail : String
  message : String
  error_code : String
deriving DecidableEq

/-- Outcome of the `axios.post` promise: resolved with a (possibly `null`)
parsed body, rejected with an HTTP error response, or rejected with no
response (network failure / timeout). -/
inductive AxiosOutcome where
  | ok (data : Option ResponseData)
  | httpError (data : HttpErrorData) (message : String)
  | networkError (message : String)
deriving DecidableEq

/-- Terminal outcome of one `handleSubmit` run: `onSuccess(response.data)`
or `onError(new Error(errorMessage))` together with the `error_code` kept in
`errorData`. -/
inductive SubmitOutcome where
  | success (data : ResponseData)
  | failure (message : String) (code : String)
deriving DecidableEq

/-- `handleSubmit` of `MeshaltoPayment.tsx` (lines 113–179), as a function of
the form state and of the provider capability `respond`.  It returns the
terminal outcome and the list of provider invocations issued (the trace):
* empty required field → local `Error('Please fill in all fields')`, caught
  by the `catch` block, no post issued;
* otherwise exactly one post to `${apiUrl}/process/${gatewayEndpoint}`;
  success iff `response.data && response.data.status === 'completed'`;
* a non-`completed` body throws `Error(error_message || 'Payment failed')`;
* an axios rejection surfaces
  `detail || message || err.message || 'Payment failed'` plus `error_code`. -/
def handleSubmit (p : MeshaltoProps) (s : CardFormState)
    (respond : PostRequest → AxiosOutcome) : SubmitOutcome × List PostRequest :=
  if s.cardNumber = "" ∨ s.expiryDate = "" ∨ s.cvv = "" ∨ s.cardholderName = "" then
    (.failure "Please fill in all fields" "", [])
  else
    match respond (builtRequest p s) with
    | .ok (some d) =>
      if d.status = "completed" then (.success d, [builtRequest p s])
      else (.failure (strOr d.error_message "Payment failed") "", [builtRequest p s])
    | .ok none => (.failure "Payment failed" "", [builtRequest p s])
    | .httpError d m =>
      (.failure (strOr d.detail (strOr d.message (strOr m "Payment failed"))) d.error_code,
        [builtRequest p s])
    | .networkError m => (.failure (strOr m "Payment failed") "", [builtRequest p s])

/-- All four required fields are filled, i.e. the validation at line 121
passes. -/
def formFilled (s : CardFormState) : Prop :=
  ¬(s.cardNumber = "" ∨ s.expiryDate = "" ∨ s.cvv = "" ∨ s.cardholderName = "")

instance (s : CardFormState) : Decidable (formFilled s) := by
  unfold formFilled; infer_instance

/-- Two successive `handleSubmit` runs with identical content: the component
holds no idempotency record, so the second run re-executes the same code. -/
def processTwice (p : MeshaltoProps) (s : CardFormState)
    (respond : PostRequest → AxiosOutcome) :
    (SubmitOutcome × List PostRequest) × (SubmitOutcome × List PostRequest) :=
  (handleSubmit p s respond, handleSubmit p s respond)

/-- Which form the JSX renders for a given `selectedGateway` (lines 227–254):
the provider-specific form for `stripe`/`square`/`paypal`, the generic card
form for `auto` or any unknown value. -/
inductive RenderedForm where
  | stripeForm
  | squareForm
  | paypalForm
  | genericCardForm
deriving DecidableEq

/-- The JSX dispatch on `selectedGateway`. -/
def renderedForm (selectedGateway : String) : RenderedForm :=
  if selectedGateway = "stripe" then .stripeForm
  else if selectedGateway = "square" then .squareForm
  else if selectedGateway = "paypal" then .paypalForm
  else .genericCardForm

/-- The gateway whose processing path a submission from the rendered form
targets: each provider-specific form targets its own provider; the generic
card form posts to `${apiUrl}/process/${gatewayEndpoint}`. -/
def invokedGateway (selectedGateway : String) : String :=
  match renderedForm selectedGateway with
  | .stripeForm => "stripe"
  | .squareForm => "square"
  | .paypalForm => "paypal"
  | .genericCardForm => gatewayEndpoint selectedGateway

/-- JavaScript `Math.round`: round half away from zero upwards, `⌊x + 1/2⌋`. -/
def jsMathRound (q : ℚ) : ℤ := ⌊q + 1 / 2⌋

/-- `StripePaymentForm.tsx` line 87: `const amountInCents = Math.round(amount * 100)` —
the amount sent by the Stripe Elements checkout path, in minor units. -/
def amountInCents (amount : ℚ) : ℤ := jsMathRound (amount * 100)

/-- The amount field of the body posted by the generic `MeshaltoPayment`
card form: the `amount` prop, unscaled (see `requestBody`). -/
def genericSentAmount (amount : ℚ) : ℚ := amount

/-- The parsed `result` body of the Stripe checkout `fetch`; the component
reads `error` and `message` on failure and forwards everything on success.
`""` models an absent field. -/
structure StripeResult where
  status : String
  error : String
  message : String
deriving DecidableEq

/-- The `fetch` response of the Stripe checkout path: HTTP `ok` flag plus
parsed JSON body. -/
structure FetchResponse where
  ok : Bool
  result : StripeResult
deriving DecidableEq

/-- Outcome reported by `CheckoutForm.handleSubmit` in
`StripePaymentForm.tsx`. -/
inductive StripeFormOutcome where
  | success (result : StripeResult)
  | failure (message : String)
deriving DecidableEq

/-- Lines 120–130 of `StripePaymentForm.tsx`: `onSuccess(result)` whenever
`response.ok`, else `onError(result.error || result.message || 'Payment
processing failed')`.  The body's `status` field is never inspected. -/
def stripeFormOutcome (resp : FetchResponse) : StripeFormOutcome :=
  if resp.ok then .success resp.result
  else .failure (strOr resp.result.error (strOr resp.result.message "Payment processing failed"))

/-- Round-half-even of a rational to an integer (the spec's §4.3 rounding
mode). -/
def halfEvenRound (q : ℚ) : ℤ :=
  let f := ⌊q⌋
  let r := q - (f : ℚ)
  if r < 1 / 2 then f
  else if 1 / 2 < (r : ℚ) then f + 1
  else if f % 2 = 0 then f else f + 1

/-- Round to 2-decimal currency precision with round-half-even (§4.3). -/
def roundToCents (q : ℚ) : ℚ := (halfEvenRound (q * 100) : ℚ) / 100

/-- Modelled from the spec (§3, §4.3–§4.4): a per-provider profile.  The
fee-based selector the spec describes lives in the backend
(`sdk/server/fee_optimizer.py` per the README), which is not under the
frontend source; this embedding follows the spec's words so the frontend's
routing can be compared against it. -/
structure ProviderProfile where
  id : String
  pct : ℚ
  fixed : ℚ
  enabled : Bool
  supportedCurrencies : List String
  supportedCountries : List String
deriving DecidableEq

/-- Modelled from the spec (§4.3 Fee Estimator): `amount * percentage +
fixed`, rounded to currency precision with round-half-even. -/
def specEstimate (amount : ℚ) (p : ProviderProfile) : ℚ :=
  roundToCents (amount * p.pct + p.fixed)

/-- Modelled from the spec (§4.4): the eligibility filter — enabled,
supports the currency and country, and allowed (empty allow-list = all). -/
def specEligible (currency country : String) (allowed : List String)
    (p : ProviderProfile) : Bool :=
  p.enabled && p.supportedCurrencies.contains currency &&
    p.supportedCountries.contains country &&
    (allowed.isEmpty || allowed.contains p.id)

/-- Index in the fixed deterministic provider priority list (§4.4 tie
break). -/
def priorityIndex (priority : List String) (id : String) : Nat :=
  priority.indexOf id

/-- Modelled from the spec (§4.4): provider `p` is ranked before `q` when its
estimated fee is lower, ties broken by the fixed priority list. -/
def specRankedBefore (amount : ℚ) (priority : List String)
    (p q : ProviderProfile) : Bool :=
  decide (specEstimate amount p < specEstimate amount q) ||
    (specEstimate amount p == specEstimate amount q &&
      decide (priorityIndex priority p.id < priorityIndex priority q.id))

/-- Insertion step of the deterministic sort used by `specRank`. -/
def specInsert (le : ProviderProfile → ProviderProfile → Bool)
    (p : ProviderProfile) : List ProviderProfile → List ProviderProfile
  | [] => [p]
  | q :: qs => if le p q then p :: q :: qs else q :: specInsert le p qs

/-- Deterministic insertion sort used by `specRank`. -/
def specSort (le : ProviderProfile → ProviderProfile → Bool) :
    List ProviderProfile → List ProviderProfile
  | [] => []
  | p :: ps => specInsert le p (specSort le ps)

/-- Modelled from the spec (§4.4 Provider Selector): filter to eligible
profiles; a present eligible `preferredProvider` (non-`"auto"`, modelled as a
non-`""` id) is placed first regardless of fee; the rest are sorted by
estimated fee ascending with the deterministic tie break. -/
def specRank (amount : ℚ) (currency country : String) (allowed : List String)
    (preferred : String) (priority : List String)
    (profiles : List ProviderProfile) : List String :=
  let elig := profiles.filter (specEligible currency country allowed)
  let le := specRankedBefore amount priority
  if preferred != "" && elig.any (fun p => p.id == preferred) then
    preferred :: (specSort le (elig.filter (fun p => p.id != preferred))).map ProviderProfile.id
  else
    (specSort le elig).map ProviderProfile.id

/-- Provider A of the spec's §8 scenario: fee 2.9% + $0.30. -/
def profileA : ProviderProfile :=
  { id := "A", pct := 29 / 1000, fixed := 3 / 10, enabled := true
    supportedCurrencies := ["USD"], supportedCountries := ["US"] }

/-- Provider B of the spec's §8 scenario: fee 2.6% + $0.10. -/
def profileB : ProviderProfile :=
  { id := "B", pct := 26 / 1000, fixed := 1 / 10, enabled := true
    supportedCurrencies := ["USD"], supportedCountries := ["US"] }

/-- The props of the demo `App.tsx` usage: `apiUrl "http://localhost:8002"`,
`amount 4.39`, `currency "USD"`, `gateway "auto"`. -/
def demoProps : MeshaltoProps :=
  { apiUrl := "http://localhost:8002", apiKey := "pk_test"
    amount := 439 / 100, currency := "USD", gateway := "auto" }

/-- A filled-in form: the Stripe test card, expiry `12/34`, cvv `123`. -/
def submittedState : CardFormState :=
  stepEvents [.card "4242 4242 4242 4242", .expiry "1234", .cvv "123", .name "John Doe"]

/-- A capability that succeeds with a `completed` payment. -/
def respondCompleted : PostRequest → AxiosOutcome := fun _ =>
  .ok (some { transaction_id := "tx_1", gateway := "stripe", status := "completed",
              error_message := "" })

/-- A capability whose request times out — the spec's prototypical retryable
failure. -/
def respondTimeout : PostRequest → AxiosOutcome := fun _ =>
  .networkError "timeout of 10000ms exceeded"

/-- An HTTP-ok Stripe-path response whose body status is not `completed`. -/
def pendingResp : FetchResponse :=
  { ok := true, result := { status := "pending", error := "", message := "" } }

/-- A form whose card field received a non-numeric entry of fewer than four
digits (which `formatCardNumber` passes through verbatim). -/
def oddState : CardFormState :=
  stepEvents [.card "abcd", .expiry "1234", .cvv "123", .name "Jo"]

/-- Claim C10's card-number shape: digit blocks of at most four separated by
single spaces (the empty string counts as zero blocks). -/
def isDigitBlocks (s : String) : Bool :=
  s.data.isEmpty ||
    (splitSp s.data).all (fun p => !p.isEmpty && p.all Char.isDigit && decide (p.length ≤ 4))

/-- Claim C10's card-number clause, as stated: digit blocks and length ≤ 19. -/
def cardNumberOkOrig (s : String) : Bool := isDigitBlocks s && decide (s.data.length ≤ 19)

/-- Claim C10's cvv clause: digits only, length ≤ 4. -/
def cvvOk (s : String) : Bool := s.data.all Char.isDigit && decide (s.data.length ≤ 4)

/-- Claim C10's expiry clause: length ≤ 5, and once two digits are present
the `MM/YY` pattern (two digits, a slash, up to two further digits). -/
def expiryOk (s : String) : Bool :=
  match s.data with
  | [] => true
  | [a] => a.isDigit
  | a :: b :: c :: rest => a.isDigit && b.isDigit && (c == '/') && rest.all Char.isDigit &&
      decide (rest.length ≤ 2)
  | _ => false

/-- Claim C10 as stated: all three clauses. -/
def invariantOrig (s : CardFormState) : Bool :=
  cardNumberOkOrig s.cardNumber && cvvOk s.cvv && expiryOk s.expiryDate

/-- The amended card-number clause: length ≤ 19, and either the digit-block
shape or a verbatim raw input holding fewer than four digits. -/
def cardNumberOkAmended (s : String) : Bool :=
  decide (s.data.length ≤ 19) &&
    (isDigitBlocks s || decide ((keepDigits s.data).length < 4))

/-- The amended C10 invariant. -/
def invariantAmended (s : CardFormState) : Bool :=
  cardNumberOkAmended s.cardNumber && cvvOk s.cvv && expiryOk s.expiryDate

/-! ### Basic lemmas about `handleSubmit` -/

lemma handleSubmit_trace (p : MeshaltoProps) (s : CardFormState)
    (respond : PostRequest → AxiosOutcome) (h : formFilled s) :
    (handleSubmit p s respond).2 = [builtRequest p s] := by
  unfold handleSubmit
  rw [if_neg h]
  rcases hr : respond (builtRequest p s) with data | ⟨d, m⟩ | m
  · cases data with
    | none => simp
    | some d => by_cases hs : d.status = "completed" <;> simp [hs]
  · simp
  · simp

lemma handleSubmit_success_iff (p : MeshaltoProps) (s : CardFormState)
    (respond : PostRequest → AxiosOutcome) (h : formFilled s) :
    (∃ d, (handleSubmit p s respond).1 = .success d) ↔
      ∃ d, respond (builtRequest p s) = .ok (some d) ∧ d.status = "completed" := by
  unfold handleSubmit
  rw [if_neg h]
  rcases hr : respond (builtRequest p s) with data | ⟨d, m⟩ | m
  · cases data with
    | none => simp
    | some d =>
      by_cases hs : d.status = "completed" <;> simp [hs]
  · simp
  · simp

/-! ### List-level lemmas about the card-number formatting -/

lemma digit_not_ws (c : Char) (h : c.isDigit = true) : c.isWhitespace = false := by
  simp [Char.isDigit] at h
  simp only [Char.isWhitespace, Bool.or_eq_false_iff]
  refine ⟨⟨⟨?_, ?_⟩, ?_⟩, ?_⟩ <;> simp only [decide_eq_false_iff_not] <;> rintro rfl <;>
    revert h <;> decide

lemma digit_ne_space (c : Char) (h : c.isDigit = true) : c ≠ ' ' := by
  intro hc
  subst hc
  revert h
  decide

lemma keepDigits_removeWs (l : List Char) : keepDigits (removeWs l) = keepDigits l := by
  induction l with
  | nil => rfl
  | cons c t ih =>
    simp only [keepDigits, removeWs, List.filter_cons] at *
    by_cases hd : c.isDigit = true
    · rw [digit_not_ws c hd] at *
      simpa [hd] using ih
    · by_cases hw : c.isWhitespace = true <;> simp_all

lemma chunk4_flatten : ∀ l : List Char, (chunk4 l).flatten = l := by
  intro l
  induction l using chunk4.induct with
  | case1 => rfl
  | case2 a b c d rest ih => simp [chunk4, ih]
  | case3 l h1 h2 => simp [chunk4]

lemma chunk4_count : ∀ l : List Char, (chunk4 l).length * 4 ≤ l.length + 3 := by
  intro l
  induction l using chunk4.induct with
  | case1 => simp [chunk4]
  | case2 a b c d rest ih => simp [chunk4] at *; omega
  | case3 l h1 h2 =>
    have hl : l ≠ [] := fun h => h1 h
    have hpos : 1 ≤ l.length := List.length_pos.2 hl
    simp [chunk4]
    omega

lemma chunk4_mem : ∀ (l : List Char) (p : List Char), p ∈ chunk4 l →
    p ≠ [] ∧ p.length ≤ 4 ∧ ∀ c ∈ p, c ∈ l := by
  intro l
  induction l using chunk4.induct with
  | case1 => simp [chunk4]
  | case2 a b c d rest ih =>
    intro p hp
    rw [chunk4] at hp
    rcases List.mem_cons.1 hp with rfl | hp
    · refine ⟨by simp, by simp, ?_⟩
      intro x hx
      simp at hx
      rcases hx with rfl | rfl | rfl | rfl <;> simp
    · obtain ⟨h1, h2, h3⟩ := ih p hp
      exact ⟨h1, h2, fun x hx => by simp [h3 x hx]⟩
  | case3 l h1 h2 =>
    intro p hp
    have hl : l ≠ [] := fun h => h1 h
    have hlen : l.length ≤ 4 := by
      rcases l with _ | ⟨a, _ | ⟨b, _ | ⟨c, _ | ⟨d, r⟩⟩⟩⟩
      · simp
      · simp
      · simp
      · simp
      · exact ((h2 a b c d r) rfl).elim
    simp [chunk4] at hp
    subst hp
    exact ⟨hl, hlen, fun c hc => hc⟩

lemma chunk4_eq_nil_iff (l : List Char) : chunk4 l = [] ↔ l = [] := by
  induction l using chunk4.induct with
  | case1 => simp [chunk4]
  | case2 a b c d rest ih => simp [chunk4]
  | case3 l h1 h2 =>
    have hl : l ≠ [] := fun h => h1 h
    simp [chunk4, hl]

lemma joinSp_cons (p : List Char) (ps : List (List Char)) (h : ps ≠ []) :
    joinSp (p :: ps) = p ++ ' ' :: joinSp ps := by
  rcases ps with _ | ⟨q, qs⟩
  · exact (h rfl).elim
  · rfl

lemma joinSp_length : ∀ ps : List (List Char), ps ≠ [] →
    (joinSp ps).length + 1 = (ps.map List.length).sum + ps.length := by
  intro ps
  induction ps using joinSp.induct with
  | case1 => simp
  | case2 p => simp [joinSp]
  | case3 p q hq ih =>
    intro _
    have hqne : q ≠ [] := fun h => hq h
    rw [joinSp_cons p q hqne]
    simp only [List.length_append, List.length_cons]
    have := ih hqne
    simp only [List.map_cons, List.sum_cons, List.length_cons]
    omega

lemma removeWs_flatten_of_noWs : ∀ ps : List (List Char),
    (∀ p ∈ ps, ∀ c ∈ p, c.isWhitespace = false) →
    removeWs (joinSp ps) = ps.flatten := by
  intro ps
  induction ps using joinSp.induct with
  | case1 => intro _; rfl
  | case2 p =>
    intro h
    simp only [joinSp, List.flatten]
    rw [removeWs, List.filter_eq_self.2]
    · simp
    · intro c hc
      simp [h p (by simp) c hc]
  | case3 p q hq ih =>
    intro h
    have hqne : q ≠ [] := fun hh => hq hh
    rw [joinSp_cons p q hqne]
    simp only [removeWs, List.filter_append, List.filter_cons]
    have hsp : (' ' : Char).isWhitespace = true := by decide
    simp only [hsp]
    rw [List.filter_eq_self.2 (by intro c hc; simp [h p (by simp) c hc])]
    have := ih (by intro r hr c hc; exact h r (by simp [hr]) c hc)
    simp only [removeWs] at this
    simp [this]

lemma splitSp_ne_nil : ∀ l : List Char, splitSp l ≠ [] := by
  intro l
  induction l with
  | nil => simp [splitSp]
  | cons c t ih =>
    rw [splitSp]
    by_cases hc : c = ' '
    · simp [hc]
    · simp only [hc, if_false]
      rcases hs : splitSp t with _ | ⟨p, ps⟩
      · simp
      · simp

lemma splitSp_append (p l : List Char) (hp : ' ' ∉ p) :
    splitSp (p ++ l) = (p ++ (splitSp l).headI) :: (splitSp l).tail := by
  induction p with
  | nil =>
    simp only [List.nil_append, List.headI]
    rcases hs : splitSp l with _ | ⟨q, qs⟩
    · exact (splitSp_ne_nil l hs).elim
    · simp
  | cons c p' ih =>
    have hc : c ≠ ' ' := fun h => hp (by simp [h])
    have hp' : ' ' ∉ p' := fun h => hp (by simp [h])
    rw [List.cons_append, splitSp, if_neg hc, ih hp']
    simp

lemma splitSp_joinSp : ∀ ps : List (List Char), ps ≠ [] →
    (∀ p ∈ ps, ' ' ∉ p) → splitSp (joinSp ps) = ps := by
  intro ps
  induction ps using joinSp.induct with
  | case1 => intro h; exact (h rfl).elim
  | case2 p =>
    intro _ h
    rw [joinSp, ← List.append_nil p, splitSp_append p [] (h p (by simp))]
    simp [splitSp]
  | case3 p q hq ih =>
    intro _ h
    have hqne : q ≠ [] := fun hh => hq hh
    rw [joinSp_cons p q hqne, splitSp_append p (' ' :: joinSp q) (h p (by simp))]
    have hstep : splitSp (' ' :: joinSp q) = [] :: splitSp (joinSp q) := by
      rw [splitSp, if_pos rfl]
    rw [hstep, ih hqne (by intro r hr; exact h r (by simp [hr]))]
    simp

/-! ### Formatter-level lemmas -/

lemma formatCardNumber_of_ge4 (v : String)
    (h4 : 4 ≤ (keepDigits (removeWs v.data)).length) :
    formatCardNumber v = ⟨joinSp (chunk4 ((keepDigits (removeWs v.data)).take 16))⟩ := by
  have hne : ((keepDigits (removeWs v.data)).take 16).isEmpty = false := by
    rcases hl : (keepDigits (removeWs v.data)).take 16 with _ | ⟨x, xs⟩
    · exfalso
      have hlen := congrArg List.length hl
      rw [List.length_take] at hlen
      simp only [List.length_nil] at hlen
      omega
    · rfl
  simp only [formatCardNumber, if_pos h4, hne, Bool.false_eq_true, if_false]

lemma formatCardNumber_short (v : String)
    (h4 : ¬ 4 ≤ (keepDigits (removeWs v.data)).length) :
    formatCardNumber v = v := by
  simp only [formatCardNumber, if_neg h4, List.isEmpty_nil, if_true]

lemma blocks_of_digits (m : List Char) (hne : m ≠ []) (h16 : m.length ≤ 16)
    (hdig : ∀ c ∈ m, c.isDigit = true) :
    isDigitBlocks ⟨joinSp (chunk4 m)⟩ = true ∧ (joinSp (chunk4 m)).length ≤ 19 := by
  have hcne : chunk4 m ≠ [] := fun h => hne ((chunk4_eq_nil_iff m).1 h)
  have hparts : ∀ p ∈ chunk4 m, p ≠ [] ∧ p.length ≤ 4 ∧ ∀ c ∈ p, c.isDigit = true := by
    intro p hp
    obtain ⟨h1, h2, h3⟩ := chunk4_mem m p hp
    exact ⟨h1, h2, fun c hc => hdig c (h3 c hc)⟩
  have hnosp : ∀ p ∈ chunk4 m, ' ' ∉ p := by
    intro p hp hsp
    exact digit_ne_space ' ' ((hparts p hp).2.2 ' ' hsp) rfl
  constructor
  · rw [isDigitBlocks]
    have hsplit : splitSp (joinSp (chunk4 m)) = chunk4 m := splitSp_joinSp _ hcne hnosp
    show (_ || _) = true
    rw [Bool.or_eq_true]
    right
    rw [hsplit, List.all_eq_true]
    intro p hp
    obtain ⟨h1, h2, h3⟩ := hparts p hp
    have hie : p.isEmpty = false := by
      rcases p with _ | ⟨x, xs⟩
      · exact (h1 rfl).elim
      · rfl
    simp [hie, h2, List.all_eq_true]
    exact h3
  · have hlen := joinSp_length (chunk4 m) hcne
    have hsum : ((chunk4 m).map List.length).sum = m.length := by
      rw [← List.length_flatten, chunk4_flatten]
    have hcount := chunk4_count m
    omega

lemma formatExpiryDate_length (v : String) : (formatExpiryDate v).data.length ≤ 5 := by
  rw [formatExpiryDate]
  by_cases h2 : 2 ≤ (keepDigits (removeWs v.data)).length
  · rw [if_pos h2]
    show (_ ++ _ :: _).length ≤ 5
    rw [List.length_append, List.length_cons, List.length_take, List.length_take]
    omega
  · rw [if_neg h2]
    show (keepDigits (removeWs v.data)).length ≤ 5
    omega

lemma expiryOk_format (v : String) : expiryOk (formatExpiryDate v) = true := by
  have hdig : ∀ c ∈ keepDigits (removeWs v.data), c.isDigit = true := by
    intro c hc
    exact List.of_mem_filter hc
  rw [formatExpiryDate]
  by_cases h2 : 2 ≤ (keepDigits (removeWs v.data)).length
  · rw [if_pos h2]
    rcases hd : keepDigits (removeWs v.data) with _ | ⟨a, _ | ⟨b, t⟩⟩
    · rw [hd] at h2; simp at h2
    · rw [hd] at h2; simp at h2
    · rw [hd] at hdig
      have ha : a.isDigit = true := hdig a (by simp)
      have hb : b.isDigit = true := hdig b (by simp)
      have ht : (t.take 2).all Char.isDigit = true := by
        rw [List.all_eq_true]
        intro c hc
        exact hdig c (by simp [List.mem_of_mem_take hc])
      have hsh : ((a :: b :: t).take 2 ++ '/' :: ((a :: b :: t).drop 2).take 2) =
          a :: b :: '/' :: t.take 2 := by simp
      rw [show (⟨(a :: b :: t).take 2 ++ '/' :: ((a :: b :: t).drop 2).take 2⟩ : String) =
          ⟨a :: b :: '/' :: t.take 2⟩ from congrArg String.mk hsh]
      have hred : expiryOk ⟨a :: b :: '/' :: t.take 2⟩ =
          (a.isDigit && b.isDigit && ('/' == '/') && (t.take 2).all Char.isDigit &&
            decide ((t.take 2).length ≤ 2)) := rfl
      rw [hred, ha, hb, ht]
      have hl2 : (t.take 2).length ≤ 2 := by
        rw [List.length_take]; omega
      simp [hl2]
  · rw [if_neg h2]
    rcases hd : keepDigits (removeWs v.data) with _ | ⟨a, _ | ⟨b, t⟩⟩
    · rfl
    · have hred : expiryOk ⟨[a]⟩ = a.isDigit := rfl
      rw [hred]
      exact hdig a (by simp [hd])
    · rw [hd] at h2; simp at h2

lemma cvvOk_keepDigits (input : String) (h : (keepDigits input.data).length ≤ 4) :
    cvvOk ⟨keepDigits input.data⟩ = true := by
  rw [cvvOk]
  simp only [Bool.and_eq_true, List.all_eq_true, decide_eq_true_eq]
  refine ⟨?_, h⟩
  intro c hc
  exact List.of_mem_filter hc

lemma cardNumberOkAmended_format (v : String)
    (hle : (formatCardNumber v).data.length ≤ 19) :
    cardNumberOkAmended (formatCardNumber v) = true := by
  by_cases h4 : 4 ≤ (keepDigits (removeWs v.data)).length
  · rw [formatCardNumber_of_ge4 v h4] at hle ⊢
    have hmlen : ((keepDigits (removeWs v.data)).take 16).length ≤ 16 := by
      rw [List.length_take]; omega
    have hmne : (keepDigits (removeWs v.data)).take 16 ≠ [] := by
      intro h
      have hlen := congrArg List.length h
      rw [List.length_take] at hlen
      simp only [List.length_nil] at hlen
      omega
    have hmdig : ∀ c ∈ (keepDigits (removeWs v.data)).take 16, c.isDigit = true := by
      intro c hc
      exact List.of_mem_filter (List.take_subset _ _ hc)
    obtain ⟨hblocks, _⟩ := blocks_of_digits _ hmne hmlen hmdig
    rw [cardNumberOkAmended]
    simp only [Bool.and_eq_true, Bool.or_eq_true, decide_eq_true_eq]
    exact ⟨hle, Or.inl hblocks⟩
  · rw [formatCardNumber_short v h4] at hle ⊢
    rw [cardNumberOkAmended]
    have hkd : (keepDigits v.data).length < 4 := by
      rw [← keepDigits_removeWs]
      omega
    simp only [Bool.and_eq_true, Bool.or_eq_true, decide_eq_true_eq]
    exact ⟨hle, Or.inr hkd⟩

lemma invariantAmended_step (s : CardFormState) (e : InputEvent)
    (h : invariantAmended s = true) : invariantAmended (step s e) = true := by
  simp only [invariantAmended, Bool.and_eq_true] at h
  obtain ⟨⟨h1, h2⟩, h3⟩ := h
  cases e with
  | card v =>
    simp only [step, handleCardNumberChange]
    split
    · next hle =>
      simp only [invariantAmended, Bool.and_eq_true]
      exact ⟨⟨cardNumberOkAmended_format v hle, h2⟩, h3⟩
    · simp only [invariantAmended, Bool.and_eq_true]
      exact ⟨⟨h1, h2⟩, h3⟩
  | expiry v =>
    simp only [step, handleExpiryDateChange]
    split
    · simp only [invariantAmended, Bool.and_eq_true]
      exact ⟨⟨h1, h2⟩, expiryOk_format v⟩
    · simp only [invariantAmended, Bool.and_eq_true]
      exact ⟨⟨h1, h2⟩, h3⟩
  | cvv v =>
    simp only [step, handleCvvChange]
    split
    · next hle =>
      simp only [invariantAmended, Bool.and_eq_true]
      exact ⟨⟨h1, cvvOk_keepDigits v hle⟩, h3⟩
    · simp only [invariantAmended, Bool.and_eq_true]
      exact ⟨⟨h1, h2⟩, h3⟩
  | name v =>
    simp only [step, invariantAmended, Bool.and_eq_true]
    exact ⟨⟨h1, h2⟩, h3⟩

lemma invariantAmended_foldl : ∀ (evs : List InputEvent) (s : CardFormState),
    invariantAmended s = true → invariantAmended (evs.foldl step s) = true := by
  intro evs
  induction evs with
  | nil => intro s h; exact h
  | cons e t ih =>
    intro s h
    exact ih (step s e) (invariantAmended_step s e h)

lemma handleCardNumberChange_pos (s : CardFormState) (v : String)
    (h : (formatCardNumber v).data.length ≤ 19) :
    handleCardNumberChange s v = { s with cardNumber := formatCardNumber v } := by
  rw [handleCardNumberChange, if_pos h]

lemma handleExpiryDateChange_eq (s : CardFormState) (v : String) :
    handleExpiryDateChange s v = { s with expiryDate := formatExpiryDate v } := by
  rw [handleExpiryDateChange, if_pos (formatExpiryDate_length v)]

lemma handleCvvChange_pos (s : CardFormState) (v : String)
    (h : (keepDigits v.data).length ≤ 4) :
    handleCvvChange s v = { s with cvv := ⟨keepDigits v.data⟩ } := by
  rw [handleCvvChange, if_pos h]

lemma formatExpiryDate_ne_empty (v : String) (h : keepDigits (removeWs v.data) ≠ []) :
    formatExpiryDate v ≠ "" := by
  rw [formatExpiryDate]
  by_cases h2 : 2 ≤ (keepDigits (removeWs v.data)).length
  · rw [if_pos h2]
    intro hh
    have hdata := congrArg String.data hh
    simp at hdata
  · rw [if_neg h2]
    intro hh
    exact h (congrArg String.data hh)

/-! ### Concrete fee-estimator values for the §8 scenario -/

lemma specEstimate_A : specEstimate (439 / 100) profileA = 43 / 100 := by
  have hq : (439 / 100 * (29 / 1000) + 3 / 10 : ℚ) * 100 = 42731 / 1000 := by norm_num
  have hf : ⌊(42731 / 1000 : ℚ)⌋ = 42 := by
    rw [Int.floor_eq_iff]
    constructor <;> norm_num
  show roundToCents (439 / 100 * (29 / 1000) + 3 / 10) = 43 / 100
  rw [roundToCents, halfEvenRound, hq, hf]
  norm_num

lemma specEstimate_B : specEstimate (439 / 100) profileB = 21 / 100 := by
  have hq : (439 / 100 * (26 / 1000) + 1 / 10 : ℚ) * 100 = 10707 / 500 := by norm_num
  have hf : ⌊(10707 / 500 : ℚ)⌋ = 21 := by
    rw [Int.floor_eq_iff]
    constructor <;> norm_num
  show roundToCents (439 / 100 * (26 / 1000) + 1 / 10) = 21 / 100
  rw [roundToCents, halfEvenRound, hq, hf]
  norm_num

lemma specRankedBefore_AB :
    specRankedBefore (439 / 100) ["A", "B"] profileA profileB = false := by
  have h1 : ¬ specEstimate (439 / 100) profileA < specEstimate (439 / 100) profileB := by
    rw [specEstimate_A, specEstimate_B]; norm_num
  have h2 : ¬ specEstimate (439 / 100) profileA = specEstimate (439 / 100) profileB := by
    rw [specEstimate_A, specEstimate_B]; norm_num
  simp [specRankedBefore, h1, h2]

/-- The spec's selector, evaluated on the §8 scenario: both providers
eligible, no preference → B (lower fee) ranked before A. -/
lemma specRank_scenario :
    specRank (439 / 100) "USD" "US" [] "" ["A", "B"] [profileA, profileB] = ["B", "A"] := by
  have hA : specEligible "USD" "US" [] profileA = true := by decide
  have hB : specEligible "USD" "US" [] profileB = true := by decide
  simp [specRank, List.filter_cons, hA, hB, specSort, specInsert, specRankedBefore_AB]
  exact ⟨rfl, rfl⟩

/-! ### Claim theorems -/

/-- C1: with gateway selection `'auto'`, the spec's selector ranks B (fee
2.6% + $0.10 ≈ $0.21 on $4.39) before A (2.9% + $0.30 ≈ $0.43), but the code
resolves `'auto'` to the constant endpoint `'stripe'` and issues its single
post there, independent of any fee data — the invoked gateway is `"stripe"`,
not the cheapest eligible provider `"B"`. -/
theorem meshalto_C1_auto_is_pinned_to_stripe :
    specRank (439 / 100) "USD" "US" [] "" ["A", "B"] [profileA, profileB] = ["B", "A"] ∧
      gatewayEndpoint "auto" = "stripe" ∧
      (handleSubmit demoProps submittedState respondCompleted).2.map PostRequest.url =
        ["http://localhost:8002/process/stripe"] ∧
      invokedGateway "auto" = "stripe" :=
  ⟨specRank_scenario, rfl, by decide, rfl⟩

/-- C2 (counterexample): the replayed second call with identical content
issues a provider invocation (its trace has length 1, not 0) — there is no
idempotency record and the posted body carries no idempotency key. -/
theorem meshalto_C2_counterexample :
    ((processTwice demoProps submittedState respondCompleted).2.2).length = 1 := by decide

/-- C2 (amended): calling the submission twice with identical content
returns the identical result only because the same code re-runs against the
same capability; the second call issues its own (second) provider
invocation. -/
theorem meshalto_C2_no_idempotent_replay (p : MeshaltoProps) (s : CardFormState)
    (respond : PostRequest → AxiosOutcome) (h : formFilled s) :
    (processTwice p s respond).2 = (processTwice p s respond).1 ∧
      (processTwice p s respond).2.2 = [builtRequest p s] :=
  ⟨rfl, handleSubmit_trace p s respond h⟩

theorem meshalto_C2_witness :
    (processTwice demoProps submittedState respondCompleted).2 =
        (processTwice demoProps submittedState respondCompleted).1 ∧
      (processTwice demoProps submittedState respondCompleted).2.2 =
        [builtRequest demoProps submittedState] :=
  meshalto_C2_no_idempotent_replay demoProps submittedState respondCompleted (by decide)

/-- C3 (counterexample): when the single invoked provider times out (a
retryable failure), the trace still contains exactly the one stripe post and
the failure is surfaced — no second-ranked provider is attempted. -/
theorem meshalto_C3_counterexample :
    (handleSubmit demoProps submittedState respondTimeout).2.map PostRequest.url =
        ["http://localhost:8002/process/stripe"] ∧
      (handleSubmit demoProps submittedState respondTimeout).1 =
        .failure "timeout of 10000ms exceeded" "" := by decide

/-- C3 (amended): a retryable failure (axios rejection with no response) on
the single invoked provider is surfaced immediately as the terminal failure;
the trace holds exactly one invocation and no further provider is
attempted. -/
theorem meshalto_C3_no_fallback (p : MeshaltoProps) (s : CardFormState)
    (respond : PostRequest → AxiosOutcome) (m : String) (h : formFilled s)
    (hr : respond (builtRequest p s) = .networkError m) :
    handleSubmit p s respond =
      (.failure (strOr m "Payment failed") "", [builtRequest p s]) := by
  unfold handleSubmit
  rw [if_neg h, hr]

theorem meshalto_C3_witness :
    handleSubmit demoProps submittedState respondTimeout =
      (.failure (strOr "timeout of 10000ms exceeded" "Payment failed") "",
        [builtRequest demoProps submittedState]) :=
  meshalto_C3_no_fallback demoProps submittedState respondTimeout
    "timeout of 10000ms exceeded" (by decide) rfl

/-- C4: a request with a missing required field terminates with the local
validation failure `'Please fill in all fields'` and an empty invocation
trace — no provider capability call is issued. -/
theorem meshalto_C4_validation_is_terminal (p : MeshaltoProps) (s : CardFormState)
    (respond : PostRequest → AxiosOutcome)
    (h : s.cardNumber = "" ∨ s.expiryDate = "" ∨ s.cvv = "" ∨ s.cardholderName = "") :
    handleSubmit p s respond = (.failure "Please fill in all fields" "", []) := by
  unfold handleSubmit
  rw [if_pos h]

theorem meshalto_C4_witness :
    handleSubmit demoProps ⟨"", "12/34", "123", "John Doe"⟩ respondCompleted =
      (.failure "Please fill in all fields" "", []) :=
  meshalto_C4_validation_is_terminal demoProps ⟨"", "12/34", "123", "John Doe"⟩
    respondCompleted (Or.inl rfl)

/-- C5: a named preferred gateway determines the rendered form and the
invoked gateway outright; no fee estimate is consulted, so the preferred
gateway is used even when any fee assignment makes another provider
cheaper. -/
theorem meshalto_C5_preferred_overrides_fee (g other : String) (feeOf : String → ℚ)
    (hg : g = "stripe" ∨ g = "square" ∨ g = "paypal")
    (hfee : feeOf other < feeOf g) :
    invokedGateway g = g := by
  rcases hg with rfl | rfl | rfl <;> rfl

theorem meshalto_C5_witness : invokedGateway "square" = "square" :=
  meshalto_C5_preferred_overrides_fee "square" "stripe"
    (fun s => if s = "square" then 2 else 1) (Or.inr (Or.inl rfl))
    (by
      show (if ("stripe" : String) = "square" then (2 : ℚ) else 1) <
        (if ("square" : String) = "square" then (2 : ℚ) else 1)
      rw [if_neg (by decide), if_pos rfl]
      norm_num)

/-- C6: for the same canonical amount 4.39, the Stripe Elements path sends
`Math.round(4.39 * 100) = 439` (minor units) while the generic card form
sends `4.39` unscaled (major units): the two submission paths to the same
processing API encode the amount differently. -/
theorem meshalto_C6_amount_units_differ :
    (amountInCents (439 / 100) : ℚ) = 439 ∧
      (requestBody demoProps submittedState).amount = 439 / 100 ∧
      ((amountInCents (439 / 100) : ℚ)) ≠ (requestBody demoProps submittedState).amount := by
  have hc : amountInCents (439 / 100) = 439 := by
    have hq : (439 / 100 : ℚ) * 100 + 1 / 2 = 879 / 2 := by norm_num
    have hf : ⌊(879 / 2 : ℚ)⌋ = 439 := by
      rw [Int.floor_eq_iff]
      constructor <;> norm_num
    rw [amountInCents, jsMathRound, hq, hf]
  have hg : (requestBody demoProps submittedState).amount = 439 / 100 := rfl
  refine ⟨by rw [hc]; norm_num, hg, ?_⟩
  rw [hc, hg]
  norm_num

/-- C7 (counterexample): an HTTP-ok Stripe-path response whose body status is
`"pending"` is reported as success by `StripePaymentForm` — the body's
`status` field is never compared with `'completed'` on that path. -/
theorem meshalto_C7_counterexample :
    stripeFormOutcome pendingResp =
        .success { status := "pending", error := "", message := "" } ∧
      pendingResp.result.status ≠ "completed" :=
  ⟨rfl, by decide⟩

/-- C7 (amended): the generic `MeshaltoPayment` form reports success iff the
response data's status equals `'completed'`; the Stripe Elements form
reports success iff the HTTP response is ok, without inspecting the status
field. -/
theorem meshalto_C7_success_tests_differ (p : MeshaltoProps) (s : CardFormState)
    (respond : PostRequest → AxiosOutcome) (h : formFilled s) :
    ((∃ d, (handleSubmit p s respond).1 = .success d) ↔
        ∃ d, respond (builtRequest p s) = .ok (some d) ∧ d.status = "completed") ∧
      ∀ r : FetchResponse, (∃ res, stripeFormOutcome r = .success res) ↔ r.ok = true := by
  refine ⟨handleSubmit_success_iff p s respond h, ?_⟩
  intro r
  rcases r with ⟨ok, res⟩
  cases ok <;> simp [stripeFormOutcome]

theorem meshalto_C7_witness :
    ((∃ d, (handleSubmit demoProps submittedState respondCompleted).1 = .success d) ↔
        ∃ d, respondCompleted (builtRequest demoProps submittedState) = .ok (some d) ∧
          d.status = "completed") ∧
      ∀ r : FetchResponse, (∃ res, stripeFormOutcome r = .success res) ↔ r.ok = true :=
  meshalto_C7_success_tests_differ demoProps submittedState respondCompleted (by decide)

/-- C9 (counterexample): entering `"abcd"` in the card field stores it
verbatim (fewer than four digits, so `formatCardNumber` passes the raw value
through), and the submission sends token `"abcd"`, whereas the first 16
digits of the entered card number (with spaces removed) form the empty
string. -/
theorem meshalto_C9_counterexample :
    (handleSubmit demoProps oddState respondCompleted).2.map
        (fun r => r.body.payment_token.token) = ["abcd"] ∧
      (⟨(keepDigits (removeWs ("abcd" : String).data)).take 16⟩ : String) = "" ∧
      ("abcd" : String) ≠ "" := by decide

/-- C10 (counterexample): after the single input-change event `"abc"`, the
stored card number is `"abc"`, which is not a space-separated sequence of
digit blocks — the claimed invariant fails at a reachable state. -/
theorem meshalto_C10_counterexample :
    (stepEvents [.card "abc"]).cardNumber = "abc" ∧
      invariantOrig (stepEvents [.card "abc"]) = false := by decide

/-- C10 (amended): after every sequence of input-change events the card-entry
state satisfies: cvv is all digits of length ≤ 4; expiryDate has length ≤ 5
and, once two digits are present, the MM/YY pattern; cardNumber has length
≤ 19 and either is a space-separated sequence of digit blocks of at most four
or holds fewer than four digits (such raw inputs pass through verbatim). -/
theorem meshalto_C10_formatting_invariant (evs : List InputEvent) :
    invariantAmended (stepEvents evs) = true :=
  invariantAmended_foldl evs initState (by decide)

/-- C9 (amended): every submission from a state built by entering a card
number with at least four digits, a non-empty expiry, a 1–4 digit cvv and a
non-empty name sends the constant email `customer@example.com`, the constant
brand `visa`, and as token exactly the first 16 digits of the entered card
number (spaces and other non-digits removed). -/
theorem meshalto_C9_constants_and_token (entered expiry cvvIn nameIn : String)
    (p : MeshaltoProps) (respond : PostRequest → AxiosOutcome)
    (hc : 4 ≤ (keepDigits (removeWs entered.data)).length)
    (hn : nameIn ≠ "")
    (he : keepDigits (removeWs expiry.data) ≠ [])
    (hv1 : keepDigits cvvIn.data ≠ [])
    (hv2 : (keepDigits cvvIn.data).length ≤ 4) :
    (handleSubmit p (stepEvents [.card entered, .expiry expiry, .cvv cvvIn, .name nameIn])
        respond).2.map
        (fun r => (r.body.customer.email, r.body.payment_token.brand,
          r.body.payment_token.token)) =
      [("customer@example.com", "visa",
        (⟨(keepDigits (removeWs entered.data)).take 16⟩ : String))] := by
  have hmlen : ((keepDigits (removeWs entered.data)).take 16).length ≤ 16 := by
    rw [List.length_take]; omega
  have hmne : (keepDigits (removeWs entered.data)).take 16 ≠ [] := by
    intro h
    have hlen := congrArg List.length h
    rw [List.length_take] at hlen
    simp only [List.length_nil] at hlen
    omega
  have hmdig : ∀ c ∈ (keepDigits (removeWs entered.data)).take 16, c.isDigit = true := by
    intro c hc'
    exact List.of_mem_filter (List.take_subset _ _ hc')
  have hfmt : formatCardNumber entered =
      ⟨joinSp (chunk4 ((keepDigits (removeWs entered.data)).take 16))⟩ :=
    formatCardNumber_of_ge4 entered hc
  have hjlen : (joinSp (chunk4 ((keepDigits (removeWs entered.data)).take 16))).length ≤ 19 :=
    (blocks_of_digits _ hmne hmlen hmdig).2
  have hpartsws : ∀ q ∈ chunk4 ((keepDigits (removeWs entered.data)).take 16),
      ∀ c ∈ q, c.isWhitespace = false := by
    intro q hq c hc'
    exact digit_not_ws c (hmdig c ((chunk4_mem _ q hq).2.2 c hc'))
  have hrm : removeWs (joinSp (chunk4 ((keepDigits (removeWs entered.data)).take 16))) =
      (keepDigits (removeWs entered.data)).take 16 := by
    rw [removeWs_flatten_of_noWs _ hpartsws, chunk4_flatten]
  have hjne : joinSp (chunk4 ((keepDigits (removeWs entered.data)).take 16)) ≠ [] := by
    intro h
    apply hmne
    rw [← hrm, h]
    rfl
  have h19 : (formatCardNumber entered).data.length ≤ 19 := by
    rw [hfmt]
    exact hjlen
  have hstate : stepEvents [.card entered, .expiry expiry, .cvv cvvIn, .name nameIn] =
      ⟨formatCardNumber entered, formatExpiryDate expiry, ⟨keepDigits cvvIn.data⟩,
        nameIn⟩ := by
    simp only [stepEvents, List.foldl, step]
    rw [handleCardNumberChange_pos _ _ h19, handleExpiryDateChange_eq, handleCvvChange_pos _ _ hv2]
  have hfil : formFilled (⟨formatCardNumber entered, formatExpiryDate expiry,
      ⟨keepDigits cvvIn.data⟩, nameIn⟩ : CardFormState) := by
    rw [formFilled]
    push_neg
    refine ⟨?_, formatExpiryDate_ne_empty expiry he, ?_, hn⟩
    · rw [hfmt]
      intro hh
      exact hjne (congrArg String.data hh)
    · intro hh
      exact hv1 (congrArg String.data hh)
  rw [hstate, handleSubmit_trace p _ respond hfil]
  have htok : (⟨(removeWs (formatCardNumber entered).data).take 16⟩ : String) =
      (⟨(keepDigits (removeWs entered.data)).take 16⟩ : String) := by
    rw [hfmt]
    show (⟨(removeWs (joinSp (chunk4 ((keepDigits (removeWs entered.data)).take 16)))).take
      16⟩ : String) = _
    rw [hrm, List.take_of_length_le hmlen]
  simp only [List.map_cons, List.map_nil, builtRequest, requestBody]
  rw [htok]

theorem meshalto_C9_witness :
    (handleSubmit demoProps
        (stepEvents [.card "4242 4242 4242 4242", .expiry "1234", .cvv "123",
          .name "John Doe"]) respondCompleted).2.map
        (fun r => (r.body.customer.email, r.body.payment_token.brand,
          r.body.payment_token.token)) =
      [("customer@example.com", "visa",
        (⟨(keepDigits (removeWs ("4242 4242 4242 4242" : String).data)).take 16⟩ :
          String))] :=
  meshalto_C9_constants_and_token "4242 4242 4242 4242" "1234" "123" "John Doe"
    demoProps respondCompleted (by decide) (by decide) (by decide) (by decide) (by decide)

end Meshalto
